import Mathlib

/-
Verification development for the ip2location BIN-database reader
(src/src/lib.rs).  The Rust source is shallowly embedded: the memory-mapped
byte buffer becomes a list of byte values (natural numbers below 256), the
usize/u32/u128 machine integers become natural numbers (all the arithmetic
appearing in the reader stays far below 2^64 except for the one unsigned
subtraction `mid - 1`, which is modelled explicitly, see `binary_search_idx`),
and fallible operations return an `Except` value.

Rust has two distinct failure modes in this code:
  * `Result::Err` values produced with `?` (the UTF-8 decoding error, and the
    explicit "Please use IPv6 BIN file for IPv6 Address." error), and
  * panics: slice/index expressions such as `&buf[offset - 1 .. offset + 3]`
    abort when the range leaves the buffer, and unsigned arithmetic such as
    `high = mid - 1` aborts on underflow (overflow-checked semantics, the mode
    the repository's own test suite runs under).
Both are modelled as `Except.error` with different constructors; `RErr.panicked`
is an abort, not a returned error, and the distinction matters for the claims
about error handling.
-/

/-- Failure modes of a lookup.  `panicked` models a Rust panic (out-of-range
slice/index or unsigned-arithmetic underflow) — an abort, not a `Result::Err`.
`invalidUtf8` models the `String::from_utf8` error propagated with `?`, and
`wrongFamily` models the explicit error returned for an IPv6 query against a
database with no IPv6 ranges. -/
inductive RErr where
  | panicked
  | invalidUtf8
  | wrongFamily
deriving DecidableEq, Repr

/-- A parsed IP address as handed to `get_record` after `ip_str.parse::<IpAddr>()`
succeeded.  The numeric payload is the `u32::from(ipaddrv4)` / `u128::from(ipaddrv6)`
value.  Textual parsing/rendering of addresses is Rust's std library, not
repository code; rendering (`Ipv4Addr::from(n).to_string()` etc.) is an
injective function of the family-tagged numeric value stored here. -/
inductive Addr where
  | v4 (n : Nat)
  | v6 (n : Nat)
deriving DecidableEq, Repr

/-- Modelled from the spec: the repository's `positions` module (the
FieldLayoutTable) is declared (`mod positions;`) but its source is not under
src/.  Per the spec it is "a fixed mapping from type (1..N) to, for each of the
20 optional field kinds, either 0 (field absent for this type) or the field's
1-based column index within the record".  Each Rust constant
`positions::COUNTRY : [usize; 25]`, ... is modelled as a total function from
the database type to the column index (0 = absent); every theorem below holds
for an arbitrary such table.  (The source arrays have 25 entries and indexing
them with a type at or above 25 would itself panic; no claim concerns such
types, and the total-function model leaves that out of scope.) -/
structure Positions where
  country : Nat → Nat
  region : Nat → Nat
  city : Nat → Nat
  isp : Nat → Nat
  latitude : Nat → Nat
  longitude : Nat → Nat
  domain : Nat → Nat
  zipcode : Nat → Nat
  timezone : Nat → Nat
  netspeed : Nat → Nat
  iddcode : Nat → Nat
  areacode : Nat → Nat
  weatherstationcode : Nat → Nat
  weatherstationname : Nat → Nat
  mcc : Nat → Nat
  mnc : Nat → Nat
  mobilebrand : Nat → Nat
  elevation : Nat → Nat
  usagetype : Nat → Nat

/-- The `IP2Location` database handle: the mapped byte buffer plus the
header-derived metadata fields (struct `IP2Location` in the source).  The
date fields and the path play no role in lookups and are omitted.  The
`positions` table rides along because its Rust source is a module constant
not present under src/ (see `Positions`). -/
structure IP2Location where
  buf : List Nat
  db_type : Nat
  db_column : Nat
  ipv4_db_count : Nat
  ipv4_db_addr : Nat
  ipv6_db_count : Nat
  ipv6_db_addr : Nat
  ipv4_index_base_addr : Nat
  ipv6_index_base_addr : Nat
  positions : Positions

/-- Well-formed buffer: every byte value is below 256 (true of any real
memory-mapped buffer). -/
def WFBuf (db : IP2Location) : Prop := ∀ b ∈ db.buf, b < 256

instance (db : IP2Location) : Decidable (WFBuf db) := by
  unfold WFBuf; infer_instance

/-- Little-endian 32-bit value assembled from the four bytes at 0-based list
index `i` (`byteorder::LittleEndian` on the 4-byte slice). -/
def le32 (buf : List Nat) (i : Nat) : Nat :=
  buf.getD i 0 + 256 * buf.getD (i + 1) 0 + 65536 * buf.getD (i + 2) 0 +
    16777216 * buf.getD (i + 3) 0

/-- Rust `fn read_u32(&self, offset: usize)`: slices `&buf[offset - 1 .. offset + 3]`
(1-based offset) and reads it little-endian.  The slice expression panics when
the range leaves the buffer (`offset + 3 > len`) and when `offset = 0`
(unsigned underflow of `offset - 1`); the byteorder read on the resulting
4-byte slice itself cannot fail. -/
def read_u32 (db : IP2Location) (offset : Nat) : Except RErr Nat :=
  if offset = 0 ∨ db.buf.length < offset + 3 then .error .panicked
  else .ok (le32 db.buf (offset - 1))

/-- Rust `fn read_f32`: same 4-byte little-endian slice as `read_u32`, reinterpreted
as an IEEE-754 single.  The bit reinterpretation is a bijection on 32-bit
patterns, so the model keeps the raw little-endian pattern; every claim about
`read_f32` concerns which bytes are read, not float arithmetic. -/
def read_f32 (db : IP2Location) (offset : Nat) : Except RErr Nat :=
  if offset = 0 ∨ db.buf.length < offset + 3 then .error .panicked
  else .ok (le32 db.buf (offset - 1))

/-- Is `b` a UTF-8 continuation byte (0x80..0xBF)? -/
def utf8Cont (b : Nat) : Bool := 128 ≤ b && b ≤ 191

/-- UTF-8 validity of a byte sequence, the check performed by
`String::from_utf8` (RFC 3629: no overlong forms, no surrogates, max U+10FFFF). -/
def utf8Valid : List Nat → Bool
  | [] => true
  | b :: rest =>
    if b ≤ 127 then utf8Valid rest
    else if 194 ≤ b && b ≤ 223 then
      match rest with
      | c1 :: r => utf8Cont c1 && utf8Valid r
      | [] => false
    else if b = 224 then
      match rest with
      | c1 :: c2 :: r => (160 ≤ c1 && c1 ≤ 191) && utf8Cont c2 && utf8Valid r
      | _ => false
    else if (225 ≤ b && b ≤ 236) || (238 ≤ b && b ≤ 239) then
      match rest with
      | c1 :: c2 :: r => utf8Cont c1 && utf8Cont c2 && utf8Valid r
      | _ => false
    else if b = 237 then
      match rest with
      | c1 :: c2 :: r => (128 ≤ c1 && c1 ≤ 159) && utf8Cont c2 && utf8Valid r
      | _ => false
    else if b = 240 then
      match rest with
      | c1 :: c2 :: c3 :: r =>
        (144 ≤ c1 && c1 ≤ 191) && utf8Cont c2 && utf8Cont c3 && utf8Valid r
      | _ => false
    else if 241 ≤ b && b ≤ 243 then
      match rest with
      | c1 :: c2 :: c3 :: r =>
        utf8Cont c1 && utf8Cont c2 && utf8Cont c3 && utf8Valid r
      | _ => false
    else if b = 244 then
      match rest with
      | c1 :: c2 :: c3 :: r =>
        (128 ≤ c1 && c1 ≤ 143) && utf8Cont c2 && utf8Cont c3 && utf8Valid r
      | _ => false
    else false

/-- Rust `fn read_string(&self, offset: usize)`: reads the length byte
`buf[offset - 1]` (panics when `offset = 0` or `offset > len`), then the run
`&buf[offset .. offset + len]` (panics when it leaves the buffer), then decodes
UTF-8 (`String::from_utf8`, whose failure is a returned error, not a panic).
The decoded string is modelled as its byte list. -/
def read_string (db : IP2Location) (offset : Nat) : Except RErr (List Nat) :=
  if offset = 0 ∨ db.buf.length < offset then .error .panicked
  else
    if db.buf.length < offset + db.buf.getD (offset - 1) 0 then .error .panicked
    else
      if utf8Valid ((db.buf.drop offset).take (db.buf.getD (offset - 1) 0)) then
        .ok ((db.buf.drop offset).take (db.buf.getD (offset - 1) 0))
      else .error .invalidUtf8

/-- Rust `fn read_ipv4`: alias for `read_u32`. -/
def read_ipv4 (db : IP2Location) (offset : Nat) : Except RErr Nat :=
  read_u32 db offset

/-- Rust `fn read_ipv6`: four consecutive little-endian u32 words at `offset`,
`offset+4`, `offset+8`, `offset+12`, composed as
`(d << 96) | (c << 64) | (b << 32) | a`. -/
def read_ipv6 (db : IP2Location) (offset : Nat) : Except RErr Nat :=
  match read_u32 db offset with
  | .error e => .error e
  | .ok a =>
    match read_u32 db (offset + 4) with
    | .error e => .error e
    | .ok b =>
      match read_u32 db (offset + 8) with
      | .error e => .error e
      | .ok c =>
        match read_u32 db (offset + 12) with
        | .error e => .error e
        | .ok d => .ok ((d <<< 96) ||| (c <<< 64) ||| (b <<< 32) ||| a)

/-- A layout table with every field absent (used by concrete test databases
whose lookups exercise only the range search and the ip field). -/
def zeroPositions : Positions :=
  ⟨fun _ => 0, fun _ => 0, fun _ => 0, fun _ => 0, fun _ => 0,
   fun _ => 0, fun _ => 0, fun _ => 0, fun _ => 0, fun _ => 0, fun _ => 0,
   fun _ => 0, fun _ => 0, fun _ => 0, fun _ => 0, fun _ => 0, fun _ => 0,
   fun _ => 0, fun _ => 0⟩

/-- A database handle over a given buffer with the remaining metadata supplied
positionally: type, column count, v4 count/addr, v6 count/addr, v4/v6 index
base addresses, positions table. -/
def mkDb (buf : List Nat) (ty col c4 a4 c6 a6 i4 i6 : Nat) (P : Positions) :
    IP2Location :=
  ⟨buf, ty, col, c4, a4, c6, a6, i4, i6, P⟩

/-- Buffer three bytes long: any 4-byte read panics (slice out of range). -/
def tinyDb : IP2Location := mkDb [0, 0, 0] 1 1 0 0 0 0 0 0 zeroPositions

/-- One optional field of an `IP2LocationRecord` (the 20 `Option` fields of the
Rust struct other than `ip`). -/
inductive FieldTag where
  | country_short
  | country_long
  | region
  | city
  | isp
  | latitude
  | longitude
  | domain
  | zipcode
  | timezone
  | netspeed
  | iddcode
  | area_code
  | weather_code
  | weather_name
  | mcc
  | mnc
  | mobile_brand
  | elevation
  | usage_type
deriving DecidableEq, Repr

/-- Value of an optional field: a decoded string (as its byte list) or an f32
(as its 32-bit little-endian pattern, see `read_f32`). -/
inductive FieldVal where
  | str (bytes : List Nat)
  | flt (bits : Nat)
deriving DecidableEq, Repr

/-- The result record (`struct IP2LocationRecord`).  `ip` holds the
family-tagged numeric address whose injective textual rendering is the Rust
`Option<String>`; the 20 optional fields are exposed as a finite map so that
the uniform per-field decoding loop of `read_record` can be stated once. -/
structure IP2LocationRecord where
  ip : Option Addr
  fields : FieldTag → Option FieldVal

/-- The `rec.field = Some v` assignment. -/
def setField (r : IP2LocationRecord) (n : FieldTag) (v : FieldVal) :
    IP2LocationRecord :=
  { r with fields := fun m => if m = n then some v else r.fields m }

/-- How a field's pointer value is used, from the source: string fields decode
a length-prefixed string at `pointer + delta` (`+1` for every string field
except the long country name, which shares the country pointer slot at `+4`);
latitude/longitude decode an f32 directly at the computed field offset. -/
inductive StepKind where
  | str (delta : Nat)
  | flt

/-- One `if positions::X[self.db_type] != 0 { rec.y = Some(...) }` block of
`read_record`: the positions array consulted, the record field written, and
the decode mode. -/
structure FieldStep where
  name : FieldTag
  pos : Positions → Nat → Nat
  kind : StepKind

/-- The closure `calc_off` of `read_record`:
`base_db_addr + index * (self.db_column * 4 + offset) + offset + 4 * (what[self.db_type] - 1)`. -/
def calc_off (db : IP2Location) (base_db_addr offset index col : Nat) : Nat :=
  base_db_addr + index * (db.db_column * 4 + offset) + offset + 4 * (col - 1)

/-- Decode one optional field: read the u32 pointer at the computed offset and
then the string at `pointer + delta`, or read the f32 directly at the computed
offset. -/
def decodeStep (db : IP2Location) (base_db_addr offset index : Nat)
    (s : FieldStep) : Except RErr FieldVal :=
  match s.kind with
  | .str delta =>
    match read_u32 db (calc_off db base_db_addr offset index
        (s.pos db.positions db.db_type)) with
    | .error e => .error e
    | .ok p =>
      match read_string db (p + delta) with
      | .error e => .error e
      | .ok bs => .ok (.str bs)
  | .flt =>
    match read_f32 db (calc_off db base_db_addr offset index
        (s.pos db.positions db.db_type)) with
    | .error e => .error e
    | .ok bits => .ok (.flt bits)

/-- The 20 gated decoding blocks of `read_record`, in source order.  The two
country fields are gated on the same `positions::COUNTRY` array and read the
same pointer slot, with string sub-offsets `+1` (short code) and `+4` (long
name); all other string fields use `+1`; latitude and longitude are f32 reads. -/
def fieldSteps : List FieldStep :=
  [⟨.country_short, fun p => p.country, .str 1⟩,
   ⟨.country_long, fun p => p.country, .str 4⟩,
   ⟨.region, fun p => p.region, .str 1⟩,
   ⟨.city, fun p => p.city, .str 1⟩,
   ⟨.isp, fun p => p.isp, .str 1⟩,
   ⟨.latitude, fun p => p.latitude, .flt⟩,
   ⟨.longitude, fun p => p.longitude, .flt⟩,
   ⟨.domain, fun p => p.domain, .str 1⟩,
   ⟨.zipcode, fun p => p.zipcode, .str 1⟩,
   ⟨.timezone, fun p => p.timezone, .str 1⟩,
   ⟨.netspeed, fun p => p.netspeed, .str 1⟩,
   ⟨.iddcode, fun p => p.iddcode, .str 1⟩,
   ⟨.area_code, fun p => p.areacode, .str 1⟩,
   ⟨.weather_code, fun p => p.weatherstationcode, .str 1⟩,
   ⟨.weather_name, fun p => p.weatherstationname, .str 1⟩,
   ⟨.mcc, fun p => p.mcc, .str 1⟩,
   ⟨.mnc, fun p => p.mnc, .str 1⟩,
   ⟨.mobile_brand, fun p => p.mobilebrand, .str 1⟩,
   ⟨.elevation, fun p => p.elevation, .str 1⟩,
   ⟨.usage_type, fun p => p.usagetype, .str 1⟩]

/-- Run the gated decoding blocks in order over the record being built; a
failed decode aborts the whole lookup (the source's `?` propagation). -/
def applySteps (db : IP2Location) (base_db_addr offset index : Nat) :
    List FieldStep → IP2LocationRecord → Except RErr IP2LocationRecord
  | [], r => .ok r
  | s :: rest, r =>
    if s.pos db.positions db.db_type ≠ 0 then
      match decodeStep db base_db_addr offset index s with
      | .error e => .error e
      | .ok v => applySteps db base_db_addr offset index rest (setField r s.name v)
    else applySteps db base_db_addr offset index rest r

/-- The `rec.ip` assignment of `read_record`: the raw address decoded directly
from the range table, at the v4 stride `db_column * 4` in BOTH branches (the
source does not add the v6 widening 12 here). -/
def readIpField (db : IP2Location) (ipaddr : Addr) (index : Nat) :
    Except RErr Addr :=
  match ipaddr with
  | .v4 _ =>
    match read_ipv4 db (db.ipv4_db_addr + index * db.db_column * 4) with
    | .error e => .error e
    | .ok n => .ok (Addr.v4 n)
  | .v6 _ =>
    match read_ipv6 db (db.ipv6_db_addr + index * db.db_column * 4) with
    | .error e => .error e
    | .ok n => .ok (Addr.v6 n)

/-- Rust `fn read_record`: sets `rec.ip` via `readIpField`, then runs the 20 gated
field decodes and returns `Ok(Some(rec))`. -/
def read_record (db : IP2Location) (ipaddr : Addr)
    (base_db_addr offset index : Nat) : Except RErr (Option IP2LocationRecord) :=
  match readIpField db ipaddr index with
  | .error e => .error e
  | .ok ipval =>
    match applySteps db base_db_addr offset index fieldSteps
        ⟨some ipval, fun _ => none⟩ with
    | .error e => .error e
    | .ok rec => .ok (some rec)

/-- The index-returning core of `fn binary_search`: the loop
`while low <= high { mid = (low+high)/2; ... }` with the source's inclusive
bounds, half-open containment test, and the unsigned update `high = mid - 1`,
which panics when `mid = 0` (usize underflow under the overflow-checked
semantics the repository's test profile uses; in release mode the wrap leads
to far out-of-range reads, likewise an abort, not a result). -/
def binary_search_idx (ipno : Nat) (get_ip_range : Nat → Except RErr (Nat × Nat))
    (low high : Nat) : Except RErr (Option Nat) :=
  if _h : low ≤ high then
    match get_ip_range ((low + high) / 2) with
    | .error e => .error e
    | .ok (ipfrom, ipto) =>
      if ipfrom ≤ ipno ∧ ipno < ipto then .ok (some ((low + high) / 2))
      else
        if ipno < ipfrom then
          if _h0 : (low + high) / 2 = 0 then .error .panicked
          else binary_search_idx ipno get_ip_range low ((low + high) / 2 - 1)
        else binary_search_idx ipno get_ip_range ((low + high) / 2 + 1) high
  else .ok none
termination_by high + 1 - low
decreasing_by
  · omega
  · omega

/-- Rust `fn binary_search`: the source returns `read_record(...)` at the match
point inside the loop; equivalently, run the index search and decode the
matched record. -/
def binary_search (db : IP2Location) (low high base_db_addr offset : Nat)
    (ipaddr : Addr) (ipno : Nat)
    (get_ip_range : Nat → Except RErr (Nat × Nat)) :
    Except RErr (Option IP2LocationRecord) :=
  match binary_search_idx ipno get_ip_range low high with
  | .error e => .error e
  | .ok none => .ok none
  | .ok (some mid) => read_record db ipaddr base_db_addr offset mid

/-- The v4 `get_ip_range` closure of `get_record`: range bounds of record
`mid` are the raw addresses of records `mid` and `mid + 1`, at stride
`db_column * 4 + offset`. -/
def get_ip_range_v4 (db : IP2Location) (base_db_addr offset mid : Nat) :
    Except RErr (Nat × Nat) :=
  match read_ipv4 db (base_db_addr + mid * (db.db_column * 4 + offset)) with
  | .error e => .error e
  | .ok ipfrom =>
    match read_ipv4 db (base_db_addr + (mid + 1) * (db.db_column * 4 + offset)) with
    | .error e => .error e
    | .ok ipto => .ok (ipfrom, ipto)

/-- The v6 `get_ip_range` closure of `get_record`. -/
def get_ip_range_v6 (db : IP2Location) (base_db_addr offset mid : Nat) :
    Except RErr (Nat × Nat) :=
  match read_ipv6 db (base_db_addr + mid * (db.db_column * 4 + offset)) with
  | .error e => .error e
  | .ok ipfrom =>
    match read_ipv6 db (base_db_addr + (mid + 1) * (db.db_column * 4 + offset)) with
    | .error e => .error e
    | .ok ipto => .ok (ipfrom, ipto)

/-- Rust `fn get_record` after address parsing (the `ip_str.parse::<IpAddr>()` step
is Rust's std parser, an external collaborator; its failure `InvalidAddress`
precedes everything modelled here).  v4: `offset = 0`, default window
`low = 0, high = ipv4_db_count`, narrowed from the index table at
`((ipno >> 16) << 3) + ipv4_index_base_addr` when that base is nonzero; v6:
the `ipv6_db_count == 0` guard returns the wrong-family error first, then the
same shape with `offset = 12` and slot `ipno >> 112`. -/
def get_record (db : IP2Location) (ipaddr : Addr) :
    Except RErr (Option IP2LocationRecord) :=
  match ipaddr with
  | .v4 ipno =>
    match (if 0 < db.ipv4_index_base_addr then
             match read_u32 db (((ipno >>> 16) <<< 3) + db.ipv4_index_base_addr) with
             | .error e => .error e
             | .ok l =>
               match read_u32 db ((((ipno >>> 16) <<< 3) + db.ipv4_index_base_addr) + 4) with
               | .error e => .error e
               | .ok h => .ok (l, h)
           else (.ok (0, db.ipv4_db_count) : Except RErr (Nat × Nat))) with
    | .error e => .error e
    | .ok (low, high) =>
      binary_search db low high db.ipv4_db_addr 0 ipaddr ipno
        (get_ip_range_v4 db db.ipv4_db_addr 0)
  | .v6 ipno =>
    if db.ipv6_db_count = 0 then .error .wrongFamily
    else
      match (if 0 < db.ipv6_index_base_addr then
               match read_u32 db (((ipno >>> 112) <<< 3) + db.ipv6_index_base_addr) with
               | .error e => .error e
               | .ok l =>
                 match read_u32 db ((((ipno >>> 112) <<< 3) + db.ipv6_index_base_addr) + 4) with
                 | .error e => .error e
                 | .ok h => .ok (l, h)
             else (.ok (0, db.ipv6_db_count) : Except RErr (Nat × Nat))) with
      | .error e => .error e
      | .ok (low, high) =>
        binary_search db low high db.ipv6_db_addr 12 ipaddr ipno
          (get_ip_range_v6 db db.ipv6_db_addr 12)

/-- The same handle with index acceleration disabled (both index base
addresses zeroed), the comparison the spec's index/no-index equivalence test
prescribes.  Nothing else changes. -/
def stripIdx (db : IP2Location) : IP2Location :=
  { db with ipv4_index_base_addr := 0, ipv6_index_base_addr := 0 }

/-- Did the lookup succeed with a record? -/
def isOkSome (e : Except RErr (Option IP2LocationRecord)) : Bool :=
  match e with
  | .ok (some _) => true
  | _ => false

/-- The `ip` field of a successful lookup's record. -/
def ipOf (e : Except RErr (Option IP2LocationRecord)) : Option Addr :=
  match e with
  | .ok (some r) => r.ip
  | _ => none

/-- One optional field of a successful lookup's record. -/
def recFieldOf (e : Except RErr (Option IP2LocationRecord)) (n : FieldTag) :
    Option FieldVal :=
  match e with
  | .ok (some r) => r.fields n
  | _ => none

/-- Whether field `n` is populated in a successful lookup's record. -/
def presenceAt (e : Except RErr (Option IP2LocationRecord)) (n : FieldTag) :
    Bool :=
  match e with
  | .ok (some r) => (r.fields n).isSome
  | _ => false

/-- The set of populated optional fields dictated by the database type through
the layout table: field `n` is marked present when its decoding block's
positions array is nonzero at `db_type`. -/
def typeMask (db : IP2Location) (n : FieldTag) : Bool :=
  fieldSteps.any fun s => s.name == n && decide (s.pos db.positions db.db_type ≠ 0)

/-- One v4 range [5, 10), record count 1, table at address 1, no index tables:
bytes 0..3 hold range start 5, bytes 4..7 hold the sentinel start 10. -/
def cdb1 : IP2Location :=
  mkDb [5, 0, 0, 0, 10, 0, 0, 0] 1 1 1 1 0 0 0 0 zeroPositions

/-- One v4 range [131072, 131082) (all its addresses have most-significant-16
prefix 2), record count 1, table at address 1, v4 index table at address 9
whose slot-0 entry is the empty window (low 1, high 0). -/
def cdb4 : IP2Location :=
  mkDb [0, 0, 2, 0, 10, 0, 2, 0, 1, 0, 0, 0, 0, 0, 0, 0] 1 1 1 1 0 0 9 0
    zeroPositions

/-- Two v6 ranges [0, 100) and [100, 200), record count 2, table at address 1
with the v6 stride 1*4+12 = 16, no index: record 0 raw start 0 (bytes 0..15),
record 1 raw start 100 (bytes 16..31), sentinel raw start 200 (bytes 32..47). -/
def cdb6 : IP2Location :=
  mkDb [0, 0, 0, 0, 0, 0, 0, 0, 0, 0, 0, 0, 0, 0, 0, 0,
        100, 0, 0, 0, 0, 0, 0, 0, 0, 0, 0, 0, 0, 0, 0, 0,
        200, 0, 0, 0, 0, 0, 0, 0, 0, 0, 0, 0, 0, 0, 0, 0]
    1 1 0 0 2 1 0 0 zeroPositions

/-- Buffer two bytes long whose first byte announces a 2-byte string run that
would leave the buffer. -/
def tinyStrDb : IP2Location := mkDb [2, 85] 1 1 0 0 0 0 0 0 zeroPositions

/-- A layout table for the witness database: type 1 carries the country pair
in column 2 and nothing else. -/
def wpos : Positions :=
  { country := fun t => if t = 1 then 2 else 0
    region := fun _ => 0
    city := fun _ => 0
    isp := fun _ => 0
    latitude := fun _ => 0
    longitude := fun _ => 0
    domain := fun _ => 0
    zipcode := fun _ => 0
    timezone := fun _ => 0
    netspeed := fun _ => 0
    iddcode := fun _ => 0
    areacode := fun _ => 0
    weatherstationcode := fun _ => 0
    weatherstationname := fun _ => 0
    mcc := fun _ => 0
    mnc := fun _ => 0
    mobilebrand := fun _ => 0
    elevation := fun _ => 0
    usagetype := fun _ => 0 }

/-- Witness database: type 1, two columns, one v4 range [5, 10) at address 1
(stride 8: raw start then country pointer), country pointer 16 for record 0,
string area at 0-based index 16: length-2 run "US" behind pointer+1 and a
length-3 run "USA" behind pointer+4. -/
def wdb : IP2Location :=
  mkDb [5, 0, 0, 0, 16, 0, 0, 0, 10, 0, 0, 0, 0, 0, 0, 0,
        2, 85, 83, 3, 85, 83, 65]
    1 2 1 1 0 0 0 0 wpos

/-- v4 witness database with an index table: one range [5, 10) at address 1
(stride 4), count 1, index table at address 9 whose slot-0 window is
(low 0, high 1). -/
def wdb4i : IP2Location :=
  mkDb [5, 0, 0, 0, 10, 0, 0, 0, 0, 0, 0, 0, 1, 0, 0, 0] 1 1 1 1 0 0 9 0
    zeroPositions

/-- v6 witness database with an index table: one range [100, 200) at address 1
(stride 16), count 1, index table at address 33 whose slot-0 window is
(low 0, high 1). -/
def wdb6i : IP2Location :=
  mkDb [100, 0, 0, 0, 0, 0, 0, 0, 0, 0, 0, 0, 0, 0, 0, 0,
        200, 0, 0, 0, 0, 0, 0, 0, 0, 0, 0, 0, 0, 0, 0, 0,
        0, 0, 0, 0, 1, 0, 0, 0, 0, 0, 0, 0, 0, 0, 0, 0]
    1 1 0 0 1 1 0 33 zeroPositions

/-- A 16-byte buffer holding the u32 words a=1, b=c=d=0 at offsets 1,5,9,13. -/
def w6a : IP2Location :=
  mkDb [1, 0, 0, 0, 0, 0, 0, 0, 0, 0, 0, 0, 0, 0, 0, 0] 1 1 0 0 0 0 0 0
    zeroPositions

/-- A 16-byte buffer holding the u32 words a=b=c=0, d=1 at offsets 1,5,9,13. -/
def w6b : IP2Location :=
  mkDb [0, 0, 0, 0, 0, 0, 0, 0, 0, 0, 0, 0, 1, 0, 0, 0] 1 1 0 0 0 0 0 0
    zeroPositions

/-- Contiguous synthetic range fetcher for the search-correctness witness:
record i spans [10 i, 10 i + 10). -/
def c3get : Nat → Except RErr (Nat × Nat) := fun i => .ok (10 * i, 10 * i + 10)

/-- Range starts of `wdb4i` on the window 0..1. -/
def c4f4 : Nat → Nat := fun i => if i = 0 then 5 else 10

/-- Range upper bounds fetched from `wdb4i` on the window 0..1 (the sentinel
record's fetched bound is whatever bytes follow the table). -/
def c4t4 : Nat → Nat := fun i => if i = 0 then 10 else 0

/-- Range starts of `wdb6i` on the window 0..1. -/
def c4f6 : Nat → Nat := fun i => if i = 0 then 100 else 200

/-- Range upper bounds fetched from `wdb6i` on the window 0..1. -/
def c4t6 : Nat → Nat := fun i => if i = 0 then 200 else 4294967296

/-- If the index search errors, `binary_search` propagates the error. -/
theorem binary_search_of_idx_err (db : IP2Location)
    (low high base_db_addr offset : Nat) (ipaddr : Addr) (ipno : Nat)
    (get : Nat → Except RErr (Nat × Nat)) (e : RErr)
    (h : binary_search_idx ipno get low high = .error e) :
    binary_search db low high base_db_addr offset ipaddr ipno get = .error e := by
  unfold binary_search
  rw [h]

/-- If the index search finds no range, `binary_search` returns no record. -/
theorem binary_search_of_idx_none (db : IP2Location)
    (low high base_db_addr offset : Nat) (ipaddr : Addr) (ipno : Nat)
    (get : Nat → Except RErr (Nat × Nat))
    (h : binary_search_idx ipno get low high = .ok none) :
    binary_search db low high base_db_addr offset ipaddr ipno get = .ok none := by
  unfold binary_search
  rw [h]

/-- If the index search matches `mid`, `binary_search` decodes record `mid`. -/
theorem binary_search_of_idx_some (db : IP2Location)
    (low high base_db_addr offset : Nat) (ipaddr : Addr) (ipno : Nat)
    (get : Nat → Except RErr (Nat × Nat)) (mid : Nat)
    (h : binary_search_idx ipno get low high = .ok (some mid)) :
    binary_search db low high base_db_addr offset ipaddr ipno get =
      read_record db ipaddr base_db_addr offset mid := by
  unfold binary_search
  rw [h]

/-- Soundness of the search loop: a returned index lies in the window and its
fetched range bounds contain the query half-openly. -/
theorem binary_search_idx_sound (ipno : Nat)
    (get : Nat → Except RErr (Nat × Nat)) :
    ∀ low high mid, binary_search_idx ipno get low high = .ok (some mid) →
      low ≤ mid ∧ mid ≤ high ∧
        ∃ f t, get mid = .ok (f, t) ∧ f ≤ ipno ∧ ipno < t := by
  have H : ∀ n low high mid, high + 1 - low ≤ n →
      binary_search_idx ipno get low high = .ok (some mid) →
      low ≤ mid ∧ mid ≤ high ∧
        ∃ f t, get mid = .ok (f, t) ∧ f ≤ ipno ∧ ipno < t := by
    intro n
    induction n with
    | zero =>
      intro low high mid hm hres
      rw [binary_search_idx] at hres
      rw [dif_neg (by omega)] at hres
      exact absurd hres (by simp)
    | succ n ih =>
      intro low high mid hm hres
      rw [binary_search_idx] at hres
      by_cases hlh : low ≤ high
      · rw [dif_pos hlh] at hres
        cases hget : get ((low + high) / 2) with
        | error e => rw [hget] at hres; exact absurd hres (by simp)
        | ok ft =>
          obtain ⟨f, t⟩ := ft
          rw [hget] at hres
          simp only at hres
          by_cases hmatch : f ≤ ipno ∧ ipno < t
          · rw [if_pos hmatch] at hres
            have hmid : (low + high) / 2 = mid := by
              simpa using hres
            subst hmid
            exact ⟨by omega, by omega, f, t, hget, hmatch.1, hmatch.2⟩
          · rw [if_neg hmatch] at hres
            by_cases hlt : ipno < f
            · rw [if_pos hlt] at hres
              by_cases h0 : (low + high) / 2 = 0
              · rw [dif_pos h0] at hres; exact absurd hres (by simp)
              · rw [dif_neg h0] at hres
                have := ih low ((low + high) / 2 - 1) mid (by omega) hres
                exact ⟨this.1, by omega, this.2.2⟩
            · rw [if_neg hlt] at hres
              have := ih ((low + high) / 2 + 1) high mid (by omega) hres
              exact ⟨by omega, this.2.1, this.2.2⟩
      · rw [dif_neg hlh] at hres
        exact absurd hres (by simp)
  intro low high mid hres
  exact H (high + 1 - low) low high mid le_rfl hres

/-- Completeness of the search loop: when all fetches in the window succeed
with range starts monotone and contiguous, and some index `j` of the window
covers the query half-openly, the loop returns exactly `j` (and in particular
never hits the `mid - 1` underflow). -/
theorem binary_search_idx_complete (ipno : Nat)
    (get : Nat → Except RErr (Nat × Nat)) (f t : Nat → Nat) :
    ∀ low high j,
      (∀ i, low ≤ i → i ≤ high → get i = .ok (f i, t i)) →
      (∀ i k, low ≤ i → i ≤ k → k ≤ high → f i ≤ f k) →
      (∀ i, low ≤ i → i < high → t i = f (i + 1)) →
      low ≤ j → j ≤ high → f j ≤ ipno → ipno < t j →
      binary_search_idx ipno get low high = .ok (some j) := by
  have H : ∀ n low high j, high + 1 - low ≤ n →
      (∀ i, low ≤ i → i ≤ high → get i = .ok (f i, t i)) →
      (∀ i k, low ≤ i → i ≤ k → k ≤ high → f i ≤ f k) →
      (∀ i, low ≤ i → i < high → t i = f (i + 1)) →
      low ≤ j → j ≤ high → f j ≤ ipno → ipno < t j →
      binary_search_idx ipno get low high = .ok (some j) := by
    intro n
    induction n with
    | zero => intro low high j hm _ _ _ hj1 hj2 _ _; omega
    | succ n ih =>
      intro low high j hm hget hmono hcontig hj1 hj2 hj3 hj4
      have hlh : low ≤ high := le_trans hj1 hj2
      rw [binary_search_idx, dif_pos hlh]
      have hmidlo : low ≤ (low + high) / 2 := by omega
      have hmidhi : (low + high) / 2 ≤ high := by omega
      rw [hget ((low + high) / 2) hmidlo hmidhi]
      simp only
      by_cases hmatch : f ((low + high) / 2) ≤ ipno ∧ ipno < t ((low + high) / 2)
      · rw [if_pos hmatch]
        have : (low + high) / 2 = j := by
          by_contra hne
          rcases Nat.lt_or_ge ((low + high) / 2) j with hlt | hge
          · have hc : t ((low + high) / 2) = f ((low + high) / 2 + 1) :=
              hcontig _ hmidlo (by omega)
            have : f ((low + high) / 2 + 1) ≤ f j := hmono _ _ (by omega) (by omega) hj2
            omega
          · have hjlt : j < (low + high) / 2 := by omega
            have hc : t j = f (j + 1) := hcontig _ hj1 (by omega)
            have : f (j + 1) ≤ f ((low + high) / 2) :=
              hmono _ _ (by omega) (by omega) hmidhi
            omega
        rw [this]
      · rw [if_neg hmatch]
        by_cases hlt : ipno < f ((low + high) / 2)
        · rw [if_pos hlt]
          have hjmid : j < (low + high) / 2 := by
            by_contra hge
            have : f ((low + high) / 2) ≤ f j := hmono _ _ hmidlo (by omega) hj2
            omega
          have h0 : ¬((low + high) / 2 = 0) := by omega
          rw [dif_neg h0]
          exact ih low ((low + high) / 2 - 1) j (by omega)
            (fun i h1 h2 => hget i h1 (by omega))
            (fun i k h1 h2 h3 => hmono i k h1 h2 (by omega))
            (fun i h1 h2 => hcontig i h1 (by omega))
            hj1 (by omega) hj3 hj4
        · rw [if_neg hlt]
          have hge : f ((low + high) / 2) ≤ ipno := by omega
          have hto : t ((low + high) / 2) ≤ ipno := by
            rcases Nat.lt_or_ge ipno (t ((low + high) / 2)) with hx | hx
            · exact absurd ⟨hge, hx⟩ hmatch
            · exact hx
          have hjmid : (low + high) / 2 < j := by
            rcases Nat.lt_or_ge ((low + high) / 2) j with hx | hx
            · exact hx
            · by_cases hje : j = (low + high) / 2
              · subst hje; omega
              · have hjlt : j < (low + high) / 2 := by omega
                have hc : t j = f (j + 1) := hcontig _ hj1 (by omega)
                have : f (j + 1) ≤ f ((low + high) / 2) :=
                  hmono _ _ (by omega) (by omega) hmidhi
                omega
          exact ih ((low + high) / 2 + 1) high j (by omega)
            (fun i h1 h2 => hget i (by omega) h2)
            (fun i k h1 h2 h3 => hmono i k (by omega) h2 h3)
            (fun i h1 h2 => hcontig i (by omega) h2)
            (by omega) hj2 hj3 hj4
  intro low high j
  exact H (high + 1 - low) low high j le_rfl

/-- Point evaluation of `setField`. -/
theorem setField_fields (r : IP2LocationRecord) (n : FieldTag) (v : FieldVal)
    (m : FieldTag) :
    (setField r n v).fields m = if m = n then some v else r.fields m := rfl

/-- Updating one field with `setField` leaves `ip` alone. -/
theorem setField_ip (r : IP2LocationRecord) (n : FieldTag) (v : FieldVal) :
    (setField r n v).ip = r.ip := rfl

/-- The field-decoding loop never touches the `ip` field. -/
theorem applySteps_ip (db : IP2Location) (base_db_addr offset index : Nat) :
    ∀ (steps : List FieldStep) (r r2 : IP2LocationRecord),
      applySteps db base_db_addr offset index steps r = .ok r2 → r2.ip = r.ip := by
  intro steps
  induction steps with
  | nil =>
    intro r r2 h
    simp only [applySteps] at h
    cases h
    rfl
  | cons s rest ih =>
    intro r r2 h
    simp only [applySteps] at h
    by_cases hg : s.pos db.positions db.db_type ≠ 0
    · rw [if_pos hg] at h
      cases hd : decodeStep db base_db_addr offset index s with
      | error e => rw [hd] at h; exact absurd h (by simp)
      | ok v =>
        rw [hd] at h
        simp only at h
        exact (ih _ _ h).trans (setField_ip r s.name v)
    · rw [if_neg hg] at h
      exact ih _ _ h

/-- After the field-decoding loop, a field is populated exactly when some step
of the remaining list wrote it (its positions gate is nonzero) or it was
already populated. -/
theorem applySteps_presence (db : IP2Location) (base_db_addr offset index : Nat) :
    ∀ (steps : List FieldStep) (r r2 : IP2LocationRecord) (n : FieldTag),
      applySteps db base_db_addr offset index steps r = .ok r2 →
      (r2.fields n).isSome =
        (steps.any (fun s => s.name == n &&
          decide (s.pos db.positions db.db_type ≠ 0)) || (r.fields n).isSome) := by
  intro steps
  induction steps with
  | nil =>
    intro r r2 n h
    simp only [applySteps] at h
    cases h
    simp
  | cons s rest ih =>
    intro r r2 n h
    simp only [applySteps] at h
    by_cases hg : s.pos db.positions db.db_type ≠ 0
    · rw [if_pos hg] at h
      cases hd : decodeStep db base_db_addr offset index s with
      | error e => rw [hd] at h; exact absurd h (by simp)
      | ok v =>
        rw [hd] at h
        simp only at h
        rw [ih _ _ n h, setField_fields]
        by_cases hn : n = s.name
        · have hb : (s.name == n) = true := by simp [hn]
          rw [if_pos hn]
          simp [List.any_cons, hb, hg]
        · have hb : (s.name == n) = false := by
            have : ¬s.name = n := by
              intro hh
              exact hn hh.symm
            simp [this]
          rw [if_neg hn]
          simp [List.any_cons, hb]
    · rw [if_neg hg] at h
      rw [ih _ _ n h]
      push_neg at hg
      simp [List.any_cons, hg]

/-- The field-decoding loop leaves fields whose tag never occurs in the list
untouched. -/
theorem applySteps_notmem (db : IP2Location) (base_db_addr offset index : Nat) :
    ∀ (steps : List FieldStep) (r r2 : IP2LocationRecord) (n : FieldTag),
      n ∉ steps.map FieldStep.name →
      applySteps db base_db_addr offset index steps r = .ok r2 →
      r2.fields n = r.fields n := by
  intro steps
  induction steps with
  | nil =>
    intro r r2 n _ h
    simp only [applySteps] at h
    cases h
    rfl
  | cons s rest ih =>
    intro r r2 n hn h
    simp only [List.map_cons, List.mem_cons] at hn
    push_neg at hn
    simp only [applySteps] at h
    by_cases hg : s.pos db.positions db.db_type ≠ 0
    · rw [if_pos hg] at h
      cases hd : decodeStep db base_db_addr offset index s with
      | error e => rw [hd] at h; exact absurd h (by simp)
      | ok v =>
        rw [hd] at h
        simp only at h
        rw [ih _ _ n hn.2 h]
        simp [setField, hn.1]
    · rw [if_neg hg] at h
      exact ih _ _ n hn.2 h

/-- For a step list with pairwise distinct tags, a successful run of the
field-decoding loop gives every gated step's field the value its decode
produced. -/
theorem applySteps_mem (db : IP2Location) (base_db_addr offset index : Nat) :
    ∀ (steps : List FieldStep) (r r2 : IP2LocationRecord) (s : FieldStep),
      (steps.map FieldStep.name).Nodup →
      s ∈ steps →
      applySteps db base_db_addr offset index steps r = .ok r2 →
      s.pos db.positions db.db_type ≠ 0 →
      ∃ v, decodeStep db base_db_addr offset index s = .ok v ∧
        r2.fields s.name = some v := by
  intro steps
  induction steps with
  | nil => intro r r2 s _ hmem; exact absurd hmem (by simp)
  | cons s0 rest ih =>
    intro r r2 s hnd hmem h hg
    simp only [List.map_cons, List.nodup_cons] at hnd
    simp only [applySteps] at h
    rcases List.mem_cons.mp hmem with hs | hs
    · subst hs
      rw [if_pos hg] at h
      cases hd : decodeStep db base_db_addr offset index s with
      | error e => rw [hd] at h; exact absurd h (by simp)
      | ok v =>
        rw [hd] at h
        simp only at h
        refine ⟨v, rfl, ?_⟩
        rw [applySteps_notmem db base_db_addr offset index rest _ _ s.name hnd.1 h]
        simp [setField]
    · by_cases hg0 : s0.pos db.positions db.db_type ≠ 0
      · rw [if_pos hg0] at h
        cases hd : decodeStep db base_db_addr offset index s0 with
        | error e => rw [hd] at h; exact absurd h (by simp)
        | ok v =>
          rw [hd] at h
          simp only at h
          exact ih _ _ s hnd.2 hs h hg
      · rw [if_neg hg0] at h
        exact ih _ _ s hnd.2 hs h hg

/-- The 20 decoding blocks write pairwise distinct record fields. -/
theorem fieldSteps_nodup : (fieldSteps.map FieldStep.name).Nodup := by
  simp [fieldSteps]

/-- A v4 lookup with a nonzero index base reduces to the binary search over
the window read from the index table. -/
theorem get_record_v4_withidx (db : IP2Location) (q l h : Nat)
    (hidx : 0 < db.ipv4_index_base_addr)
    (h1 : read_u32 db (((q >>> 16) <<< 3) + db.ipv4_index_base_addr) = .ok l)
    (h2 : read_u32 db ((((q >>> 16) <<< 3) + db.ipv4_index_base_addr) + 4) = .ok h) :
    get_record db (.v4 q) =
      binary_search db l h db.ipv4_db_addr 0 (.v4 q) q
        (get_ip_range_v4 db db.ipv4_db_addr 0) := by
  simp only [get_record]
  rw [if_pos hidx, h1, h2]

/-- A v4 lookup with index base zero reduces to the binary search over the
default window `low = 0, high = ipv4_db_count`. -/
theorem get_record_v4_noidx (db : IP2Location) (q : Nat)
    (hidx : ¬0 < db.ipv4_index_base_addr) :
    get_record db (.v4 q) =
      binary_search db 0 db.ipv4_db_count db.ipv4_db_addr 0 (.v4 q) q
        (get_ip_range_v4 db db.ipv4_db_addr 0) := by
  simp only [get_record]
  rw [if_neg hidx]

/-- A v6 lookup against a handle with IPv6 ranges and a nonzero v6 index base
reduces to the binary search over the window read from the index table. -/
theorem get_record_v6_withidx (db : IP2Location) (q l h : Nat)
    (hc : db.ipv6_db_count ≠ 0)
    (hidx : 0 < db.ipv6_index_base_addr)
    (h1 : read_u32 db (((q >>> 112) <<< 3) + db.ipv6_index_base_addr) = .ok l)
    (h2 : read_u32 db ((((q >>> 112) <<< 3) + db.ipv6_index_base_addr) + 4) = .ok h) :
    get_record db (.v6 q) =
      binary_search db l h db.ipv6_db_addr 12 (.v6 q) q
        (get_ip_range_v6 db db.ipv6_db_addr 12) := by
  simp only [get_record]
  rw [if_neg hc, if_pos hidx, h1, h2]

/-- A v6 lookup against a handle with IPv6 ranges and v6 index base zero
reduces to the binary search over the default window. -/
theorem get_record_v6_noidx (db : IP2Location) (q : Nat)
    (hc : db.ipv6_db_count ≠ 0)
    (hidx : ¬0 < db.ipv6_index_base_addr) :
    get_record db (.v6 q) =
      binary_search db 0 db.ipv6_db_count db.ipv6_db_addr 12 (.v6 q) q
        (get_ip_range_v6 db db.ipv6_db_addr 12) := by
  simp only [get_record]
  rw [if_neg hc, if_neg hidx]

/-- A successful `binary_search` run is a successful index search followed by a
successful record decode at the matched index. -/
theorem binary_search_ok_some (db : IP2Location)
    (low high base_db_addr offset : Nat) (ipaddr : Addr) (ipno : Nat)
    (get : Nat → Except RErr (Nat × Nat)) (r : IP2LocationRecord)
    (h : binary_search db low high base_db_addr offset ipaddr ipno get =
      .ok (some r)) :
    ∃ mid, binary_search_idx ipno get low high = .ok (some mid) ∧
      read_record db ipaddr base_db_addr offset mid = .ok (some r) := by
  unfold binary_search at h
  cases h3 : binary_search_idx ipno get low high with
  | error e => rw [h3] at h; exact absurd h (by simp)
  | ok o =>
    cases o with
    | none => rw [h3] at h; exact absurd h (by simp)
    | some mid => rw [h3] at h; exact ⟨mid, rfl, h⟩

/-- A successful v4 lookup decomposes into a window, a matched index, and a
successful record decode there. -/
theorem get_record_v4_ok_some (db : IP2Location) (q : Nat)
    (r : IP2LocationRecord) (h : get_record db (.v4 q) = .ok (some r)) :
    ∃ low high mid,
      binary_search_idx q (get_ip_range_v4 db db.ipv4_db_addr 0) low high =
        .ok (some mid) ∧
      read_record db (.v4 q) db.ipv4_db_addr 0 mid = .ok (some r) := by
  by_cases hidx : 0 < db.ipv4_index_base_addr
  · simp only [get_record] at h
    rw [if_pos hidx] at h
    cases h1 : read_u32 db (((q >>> 16) <<< 3) + db.ipv4_index_base_addr) with
    | error e => rw [h1] at h; exact absurd h (by simp)
    | ok l =>
      rw [h1] at h
      cases h2 : read_u32 db ((((q >>> 16) <<< 3) + db.ipv4_index_base_addr) + 4) with
      | error e => rw [h2] at h; exact absurd h (by simp)
      | ok hi =>
        rw [h2] at h
        simp only at h
        obtain ⟨mid, hm, hr⟩ := binary_search_ok_some _ _ _ _ _ _ _ _ _ h
        exact ⟨l, hi, mid, hm, hr⟩
  · rw [get_record_v4_noidx db q hidx] at h
    obtain ⟨mid, hm, hr⟩ := binary_search_ok_some _ _ _ _ _ _ _ _ _ h
    exact ⟨0, db.ipv4_db_count, mid, hm, hr⟩

/-- A successful v6 lookup decomposes the same way. -/
theorem get_record_v6_ok_some (db : IP2Location) (q : Nat)
    (r : IP2LocationRecord) (h : get_record db (.v6 q) = .ok (some r)) :
    ∃ low high mid,
      binary_search_idx q (get_ip_range_v6 db db.ipv6_db_addr 12) low high =
        .ok (some mid) ∧
      read_record db (.v6 q) db.ipv6_db_addr 12 mid = .ok (some r) := by
  by_cases hc : db.ipv6_db_count = 0
  · simp only [get_record] at h
    rw [if_pos hc] at h
    exact absurd h (by simp)
  · by_cases hidx : 0 < db.ipv6_index_base_addr
    · simp only [get_record] at h
      rw [if_neg hc, if_pos hidx] at h
      cases h1 : read_u32 db (((q >>> 112) <<< 3) + db.ipv6_index_base_addr) with
      | error e => rw [h1] at h; exact absurd h (by simp)
      | ok l =>
        rw [h1] at h
        cases h2 : read_u32 db ((((q >>> 112) <<< 3) + db.ipv6_index_base_addr) + 4) with
        | error e => rw [h2] at h; exact absurd h (by simp)
        | ok hi =>
          rw [h2] at h
          simp only at h
          obtain ⟨mid, hm, hr⟩ := binary_search_ok_some _ _ _ _ _ _ _ _ _ h
          exact ⟨l, hi, mid, hm, hr⟩
    · rw [get_record_v6_noidx db q hc hidx] at h
      obtain ⟨mid, hm, hr⟩ := binary_search_ok_some _ _ _ _ _ _ _ _ _ h
      exact ⟨0, db.ipv6_db_count, mid, hm, hr⟩

/-- A successful record decode decomposes into the ip read and a successful
run of the field loop starting from the record holding only the ip. -/
theorem read_record_ok_some (db : IP2Location) (ipaddr : Addr)
    (base_db_addr offset index : Nat) (r : IP2LocationRecord)
    (h : read_record db ipaddr base_db_addr offset index = .ok (some r)) :
    ∃ ipval, readIpField db ipaddr index = .ok ipval ∧
      applySteps db base_db_addr offset index fieldSteps
        ⟨some ipval, fun _ => none⟩ = .ok r := by
  unfold read_record at h
  cases h1 : readIpField db ipaddr index with
  | error e => rw [h1] at h; exact absurd h (by simp)
  | ok ipval =>
    rw [h1] at h
    simp only at h
    cases h2 : applySteps db base_db_addr offset index fieldSteps
        ⟨some ipval, fun _ => none⟩ with
    | error e => rw [h2] at h; exact absurd h (by simp)
    | ok rec =>
      rw [h2] at h
      simp only at h
      have : rec = r := by simpa using h
      subst this
      exact ⟨ipval, rfl, h2⟩

/-- Claim C1 (divergence evidence): for the database `cdb1` with a single v4
range [5, 10) and no index, the query address 3 lies below the first range's
start, and `get_record` does not return the claimed "no record" result
`Ok(None)`: the loop reaches `low = 0, high = 1, mid = 0` with the query below
`range_start(0)` and executes the unsigned update `high = mid - 1`, i.e.
`0usize - 1`, an abort (panic under checked arithmetic — the mode the
repository's tests run in — and a wrap into far out-of-range reads in release
mode), never `Ok(None)`. -/
theorem C1_below_first_start_aborts :
    get_record cdb1 (.v4 3) = .error .panicked := by
  have h : binary_search_idx 3 (get_ip_range_v4 cdb1 1 0) 0 1 = .error .panicked := by
    rw [binary_search_idx]
    norm_num
    rw [show get_ip_range_v4 cdb1 1 0 0 = .ok (5, 10) from rfl]
    norm_num
  show binary_search cdb1 0 1 1 0 (.v4 3) 3 (get_ip_range_v4 cdb1 1 0) =
    .error .panicked
  exact binary_search_of_idx_err _ _ _ _ _ _ _ _ _ h

/-- Claim C2 (divergence evidence): in `cdb6` (v6 table at address 1, one
column, so search stride `column_count*4 + 12 = 16`) the lookup of address 150
matches range index 1, whose stored raw start — read by the search itself at
`ipv6_db_addr + 1 * (column_count*4 + 12)` — is 100.  But `read_record` fills
the ip field from `ipv6_db_addr + index * column_count * 4` (stride without
the v6 widening 12), which lands 12 bytes short and decodes `100 << 96`
instead of 100.  The returned ip is therefore not the textual rendering of the
matched range's stored raw address (the rendering is injective on the raw
value). -/
theorem C2_ipv6_ip_read_uses_wrong_stride :
    binary_search_idx 150 (get_ip_range_v6 cdb6 1 12) 0 2 = .ok (some 1) ∧
    read_ipv6 cdb6 (1 + 1 * (1 * 4 + 12)) = .ok 100 ∧
    readIpField cdb6 (.v6 150) 1 = .ok (.v6 (100 <<< 96)) ∧
    ipOf (read_record cdb6 (.v6 150) 1 12 1) = some (.v6 (100 <<< 96)) ∧
    (100 <<< 96 : Nat) ≠ 100 := by
  refine ⟨?_, rfl, rfl, rfl, by decide⟩
  rw [binary_search_idx]
  norm_num
  rw [show get_ip_range_v6 cdb6 1 12 1 = .ok (100, 200) from rfl]
  norm_num

/-- Claim C5 corrected: the decode primitives do not RETURN an out-of-bounds
error — the slice/index expressions abort (Rust panic, `RErr.panicked`)
whenever the bytes to be read leave the buffer; in bounds, `read_u32` returns
the 4 bytes at the 1-based offset little-endian.  `read_string` aborts when the
length byte lies outside the buffer or the announced run of `L` bytes does;
the only failure `read_u32` can surface is the abort, never a returned error
value. -/
theorem C5_reader_bounds_amended (db : IP2Location) (offset : Nat) :
    (offset = 0 ∨ db.buf.length < offset + 3 →
      read_u32 db offset = .error .panicked ∧
      read_f32 db offset = .error .panicked) ∧
    (offset ≠ 0 → offset + 3 ≤ db.buf.length →
      read_u32 db offset = .ok (le32 db.buf (offset - 1))) ∧
    (offset ≠ 0 → offset ≤ db.buf.length →
      db.buf.length < offset + db.buf.getD (offset - 1) 0 →
      read_string db offset = .error .panicked) ∧
    (offset ≠ 0 → db.buf.length < offset →
      read_string db offset = .error .panicked) ∧
    (∀ e, read_u32 db offset = .error e → e = .panicked) := by
  refine ⟨?_, ?_, ?_, ?_, ?_⟩
  · intro h
    constructor <;> [rw [read_u32]; rw [read_f32]] <;> rw [if_pos h]
  · intro h1 h2
    rw [read_u32, if_neg (by omega)]
  · intro h1 h2 h3
    rw [read_string, if_neg (by omega), if_pos h3]
  · intro h1 h2
    rw [read_string, if_pos (Or.inr h2)]
  · intro e he
    rw [read_u32] at he
    by_cases h : offset = 0 ∨ db.buf.length < offset + 3
    · rw [if_pos h] at he
      exact (Except.error.inj he).symm
    · rw [if_neg h] at he
      exact absurd he (by simp)

/-- Claim C5 counterexample: on a three-byte buffer, `read_u32` at offset 1
needs bytes up to index 3 and aborts (`RErr.panicked`, the model of a Rust
slice-out-of-range panic) instead of returning an out-of-bounds error value;
likewise `read_string` when the announced run leaves the buffer.  The claim's
"returned error, terminal only for the current lookup and leaving the handle
valid" does not describe an abort. -/
theorem C5_oob_aborts_counterexample :
    read_u32 tinyDb 1 = .error .panicked ∧
    read_string tinyStrDb 1 = .error .panicked := ⟨rfl, rfl⟩

/-- Claim C5 witness: the amended characterisation applied at concrete
buffers: out-of-bounds abort on `tinyDb`, in-bounds little-endian value on
`cdb1`, string-run abort on `tinyStrDb`. -/
theorem C5_reader_bounds_amended_witness :
    (read_u32 tinyDb 1 = .error .panicked ∧
      read_f32 tinyDb 1 = .error .panicked) ∧
    read_u32 cdb1 1 = .ok 5 ∧
    read_string tinyStrDb 1 = .error .panicked := by
  refine ⟨(C5_reader_bounds_amended tinyDb 1).1 (by right; decide), ?_, ?_⟩
  · exact (C5_reader_bounds_amended cdb1 1).2.1 (by decide) (by decide)
  · exact (C5_reader_bounds_amended tinyStrDb 1).2.2.1 (by decide) (by decide)
      (by decide)

/-- Claim C6: on every buffer where the four u32 reads at `offset`,
`offset+4`, `offset+8`, `offset+12` succeed with values a, b, c, d, the
`read_ipv6` result is the 128-bit composition `(d << 96) | (c << 64) |
(b << 32) | a`. -/
theorem C6_read_ipv6_composition (db : IP2Location) (offset a b c d : Nat)
    (ha : read_u32 db offset = .ok a) (hb : read_u32 db (offset + 4) = .ok b)
    (hc : read_u32 db (offset + 8) = .ok c)
    (hd : read_u32 db (offset + 12) = .ok d) :
    read_ipv6 db offset = .ok ((d <<< 96) ||| (c <<< 64) ||| (b <<< 32) ||| a) := by
  rw [read_ipv6, ha, hb, hc, hd]

/-- Claim C6 witness: the spec's literal tests.  Words a=1, b=c=d=0 compose to
the integer 1; words a=b=c=0, d=1 compose to `1 << 96` (which is 2^96). -/
theorem C6_read_ipv6_composition_witness :
    read_ipv6 w6a 1 = .ok 1 ∧ read_ipv6 w6b 1 = .ok (1 <<< 96) ∧
    (1 <<< 96 : Nat) = 2 ^ 96 := by
  refine ⟨?_, ?_, by rw [Nat.shiftLeft_eq, one_mul]⟩
  · have h := C6_read_ipv6_composition w6a 1 1 0 0 0 rfl rfl rfl rfl
    simpa using h
  · have h := C6_read_ipv6_composition w6b 1 0 0 0 1 rfl rfl rfl rfl
    simpa using h

/-- Claim C8: an IPv6 lookup against a handle whose `ipv6_db_count` is zero
fails with the wrong-address-family error before any index read, range read or
search step; the second conjunct makes the "buffer beyond the header is never
touched" aspect explicit — the outcome is the same for every buffer
substituted into the handle. -/
theorem C8_wrong_family_guard (db : IP2Location) (q : Nat)
    (hc : db.ipv6_db_count = 0) :
    get_record db (.v6 q) = .error .wrongFamily ∧
    ∀ bs : List Nat, get_record { db with buf := bs } (.v6 q) =
      .error .wrongFamily := by
  constructor
  · simp only [get_record]
    rw [if_pos hc]
  · intro bs
    simp only [get_record]
    rw [if_pos (show ({ db with buf := bs } : IP2Location).ipv6_db_count = 0 from hc)]

/-- Claim C8 witness: the guard applied to the v4-only database `cdb1`
(whose `ipv6_db_count` is 0) at the query address 5. -/
theorem C8_wrong_family_guard_witness :
    get_record cdb1 (.v6 5) = .error .wrongFamily :=
  (C8_wrong_family_guard cdb1 5 rfl).1

/-- Claim C3: when every fetch on the window succeeds, range starts are
monotone on the window and upper bounds are the next record's start
(contiguity), the search returns record `mid` exactly when
`ipfrom(mid) ≤ query < ipto(mid)` with `mid` in the window — half-open
containment: a query equal to `ipto(mid)` never yields `mid`, and (by the same
equivalence applied at `mid + 1`, whose start IS that bound) yields the next
record when it is covered at all. -/
theorem C3_half_open_match_iff (ipno : Nat)
    (get : Nat → Except RErr (Nat × Nat)) (f t : Nat → Nat) (low high : Nat)
    (hget : ∀ i, low ≤ i → i ≤ high → get i = .ok (f i, t i))
    (hmono : ∀ i k, low ≤ i → i ≤ k → k ≤ high → f i ≤ f k)
    (hcontig : ∀ i, low ≤ i → i < high → t i = f (i + 1))
    (mid : Nat) :
    binary_search_idx ipno get low high = .ok (some mid) ↔
      low ≤ mid ∧ mid ≤ high ∧ f mid ≤ ipno ∧ ipno < t mid := by
  constructor
  · intro h
    obtain ⟨h1, h2, f2, t2, hg, hf, ht⟩ :=
      binary_search_idx_sound ipno get low high mid h
    rw [hget mid h1 h2] at hg
    have hp : (f mid, t mid) = (f2, t2) := Except.ok.inj hg
    have hfe : f2 = f mid := ((Prod.mk.injEq _ _ _ _ ▸ hp).1).symm
    have hte : t2 = t mid := ((Prod.mk.injEq _ _ _ _ ▸ hp).2).symm
    exact ⟨h1, h2, hfe ▸ hf, hte ▸ ht⟩
  · intro h
    exact binary_search_idx_complete ipno get f t low high mid hget hmono hcontig
      h.1 h.2.1 h.2.2.1 h.2.2.2

/-- Claim C3 witness: over the synthetic contiguous table `c3get` (record i
spans [10 i, 10 i + 10)) on window 0..5, the query 25 matches exactly record
2; and the boundary query 20 — equal to record 1's upper bound — matches
record 2, not record 1. -/
theorem C3_half_open_match_iff_witness :
    binary_search_idx 25 c3get 0 5 = .ok (some 2) ∧
    ¬binary_search_idx 20 c3get 0 5 = .ok (some 1) ∧
    binary_search_idx 20 c3get 0 5 = .ok (some 2) := by
  have hget : ∀ i, 0 ≤ i → i ≤ 5 → c3get i = .ok (10 * i, 10 * i + 10) :=
    fun i _ _ => rfl
  have hmono : ∀ i k, 0 ≤ i → i ≤ k → k ≤ 5 → 10 * i ≤ 10 * k :=
    fun i k _ h2 _ => by omega
  have hcontig : ∀ i, 0 ≤ i → i < 5 → 10 * i + 10 = 10 * (i + 1) :=
    fun i _ _ => by ring
  refine ⟨?_, ?_, ?_⟩
  · exact (C3_half_open_match_iff 25 c3get (fun i => 10 * i)
      (fun i => 10 * i + 10) 0 5 hget hmono hcontig 2).mpr (by norm_num)
  · intro h
    have := (C3_half_open_match_iff 20 c3get (fun i => 10 * i)
      (fun i => 10 * i + 10) 0 5 hget hmono hcontig 1).mp h
    omega
  · exact (C3_half_open_match_iff 20 c3get (fun i => 10 * i)
      (fun i => 10 * i + 10) 0 5 hget hmono hcontig 2).mpr (by norm_num)

/-- Claim C7: whenever a lookup's record decode succeeds, every decoding block
whose layout-table column is nonzero read its u32 pointer at
`base_db_addr + index*(column_count*4 + offset) + offset + 4*(column - 1)`
(`offset` is the per-family extra: 0 for v4, 12 for v6, as passed by
`get_record`); string blocks then decoded a length-prefixed string at
`pointer + delta` (`delta = 1`, except 4 for the long country name sharing the
country pointer slot — see `fieldSteps`), and the latitude/longitude blocks
decoded the f32 directly at the computed field offset, the resulting value
landing in the block's record field. -/
theorem C7_field_offset_formula (db : IP2Location) (a : Addr)
    (base_db_addr offset index : Nat) (s : FieldStep)
    (hmem : s ∈ fieldSteps)
    (hgate : s.pos db.positions db.db_type ≠ 0)
    (hok : isOkSome (read_record db a base_db_addr offset index) = true) :
    match s.kind with
    | .str delta => ∃ p v,
        read_u32 db (base_db_addr + index * (db.db_column * 4 + offset) + offset +
          4 * (s.pos db.positions db.db_type - 1)) = .ok p ∧
        read_string db (p + delta) = .ok v ∧
        recFieldOf (read_record db a base_db_addr offset index) s.name =
          some (.str v)
    | .flt => ∃ v,
        read_f32 db (base_db_addr + index * (db.db_column * 4 + offset) + offset +
          4 * (s.pos db.positions db.db_type - 1)) = .ok v ∧
        recFieldOf (read_record db a base_db_addr offset index) s.name =
          some (.flt v) := by
  cases hrr : read_record db a base_db_addr offset index with
  | error e => rw [hrr] at hok; exact absurd hok (by simp [isOkSome])
  | ok o =>
    cases o with
    | none => rw [hrr] at hok; exact absurd hok (by simp [isOkSome])
    | some r =>
      obtain ⟨ipval, hip, happ⟩ :=
        read_record_ok_some db a base_db_addr offset index r hrr
      obtain ⟨v, hdec, hfield⟩ := applySteps_mem db base_db_addr offset index
        fieldSteps _ r s fieldSteps_nodup hmem happ hgate
      cases hk : s.kind with
      | str delta =>
        rw [decodeStep, hk] at hdec
        cases hu : read_u32 db (calc_off db base_db_addr offset index
            (s.pos db.positions db.db_type)) with
        | error e => rw [hu] at hdec; exact absurd hdec (by simp)
        | ok p =>
          rw [hu] at hdec
          simp only at hdec
          cases hs : read_string db (p + delta) with
          | error e => rw [hs] at hdec; exact absurd hdec (by simp)
          | ok bs =>
            rw [hs] at hdec
            simp only at hdec
            have hv : v = .str bs := (Except.ok.inj hdec).symm
            refine ⟨p, bs, hu, hs, ?_⟩
            show r.fields s.name = some (.str bs)
            rw [hfield, hv]
      | flt =>
        rw [decodeStep, hk] at hdec
        cases hu : read_f32 db (calc_off db base_db_addr offset index
            (s.pos db.positions db.db_type)) with
        | error e => rw [hu] at hdec; exact absurd hdec (by simp)
        | ok bits =>
          rw [hu] at hdec
          simp only at hdec
          have hv : v = .flt bits := (Except.ok.inj hdec).symm
          refine ⟨bits, hu, ?_⟩
          show r.fields s.name = some (.flt bits)
          rw [hfield, hv]

/-- Claim C7 witness: on the witness database `wdb` (type 1, country column 2,
two columns, v4 extra offset 0), the record decode at index 0 succeeds, and
the country-short block read its pointer at
`1 + 0*(2*4+0) + 0 + 4*(2-1) = 5`, yielding 16, then decoded the run "US" at
`16 + 1`. -/
theorem C7_field_offset_formula_witness :
    ∃ p v,
      read_u32 wdb (1 + 0 * (wdb.db_column * 4 + 0) + 0 +
        4 * (wdb.positions.country wdb.db_type - 1)) = .ok p ∧
      read_string wdb (p + 1) = .ok v ∧
      recFieldOf (read_record wdb (.v4 7) 1 0 0) .country_short =
        some (.str v) := by
  have h := C7_field_offset_formula wdb (.v4 7) 1 0 0
    ⟨.country_short, fun p => p.country, .str 1⟩
    (by rw [fieldSteps]; exact List.mem_cons_self _ _) (by decide) rfl
  exact h

/-- Any successful lookup's populated-field set is dictated by the layout
table alone (`typeMask`). -/
theorem presence_of_ok (db : IP2Location) (a : Addr)
    (hok : isOkSome (get_record db a) = true) :
    ∀ n, presenceAt (get_record db a) n = typeMask db n := by
  intro n
  cases hg : get_record db a with
  | error e => rw [hg] at hok; exact absurd hok (by simp [isOkSome])
  | ok o =>
    cases o with
    | none => rw [hg] at hok; exact absurd hok (by simp [isOkSome])
    | some r =>
      show (r.fields n).isSome = typeMask db n
      cases a with
      | v4 q =>
        obtain ⟨low, high, mid, hm, hr⟩ := get_record_v4_ok_some db q r hg
        obtain ⟨ipval, hip, happ⟩ :=
          read_record_ok_some db _ _ _ _ r hr
        have hp := applySteps_presence db db.ipv4_db_addr 0 mid fieldSteps
          _ r n happ
        simpa [typeMask] using hp
      | v6 q =>
        obtain ⟨low, high, mid, hm, hr⟩ := get_record_v6_ok_some db q r hg
        obtain ⟨ipval, hip, happ⟩ :=
          read_record_ok_some db _ _ _ _ r hr
        have hp := applySteps_presence db db.ipv6_db_addr 12 mid fieldSteps
          _ r n happ
        simpa [typeMask] using hp

/-- The `wdb` lookup of address 7 reduces to decoding record 0. -/
theorem wdb_lookup7 : get_record wdb (.v4 7) = read_record wdb (.v4 7) 1 0 0 := by
  have hbs : binary_search_idx 7 (get_ip_range_v4 wdb 1 0) 0 1 = .ok (some 0) := by
    rw [binary_search_idx]
    norm_num
    rw [show get_ip_range_v4 wdb 1 0 0 = .ok (5, 10) from rfl]
    norm_num
  rw [get_record_v4_noidx wdb 7 (by decide)]
  exact binary_search_of_idx_some _ _ _ _ _ _ _ _ _ hbs

/-- The `wdb` lookup of address 8 reduces to decoding record 0. -/
theorem wdb_lookup8 : get_record wdb (.v4 8) = read_record wdb (.v4 8) 1 0 0 := by
  have hbs : binary_search_idx 8 (get_ip_range_v4 wdb 1 0) 0 1 = .ok (some 0) := by
    rw [binary_search_idx]
    norm_num
    rw [show get_ip_range_v4 wdb 1 0 0 = .ok (5, 10) from rfl]
    norm_num
  rw [get_record_v4_noidx wdb 8 (by decide)]
  exact binary_search_of_idx_some _ _ _ _ _ _ _ _ _ hbs

/-- The `wdb` lookups of 7 and 8 both succeed with records. -/
theorem wdb_lookups_ok :
    isOkSome (get_record wdb (.v4 7)) = true ∧
    isOkSome (get_record wdb (.v4 8)) = true := by
  constructor
  · rw [wdb_lookup7]; rfl
  · rw [wdb_lookup8]; rfl

/-- Claim C9: for a fixed handle, any two lookups that each return a record
populate exactly the same optional fields — each field is populated iff the
layout table marks it present for the handle's type (`typeMask`), regardless
of the queried addresses. -/
theorem C9_field_presence_determinism (db : IP2Location) (a1 a2 : Addr)
    (h1 : isOkSome (get_record db a1) = true)
    (h2 : isOkSome (get_record db a2) = true) :
    ∀ n, presenceAt (get_record db a1) n = typeMask db n ∧
      presenceAt (get_record db a2) n = typeMask db n :=
  fun n => ⟨presence_of_ok db a1 h1 n, presence_of_ok db a2 h2 n⟩

/-- Claim C9 witness: the records returned for the two distinct addresses 7
and 8 of `wdb` with the layout-table mask applied at the country-short and
region fields (present resp. absent for type 1). -/
theorem C9_field_presence_determinism_witness :
    (presenceAt (get_record wdb (.v4 7)) .country_short =
      typeMask wdb .country_short ∧
     presenceAt (get_record wdb (.v4 8)) .country_short =
      typeMask wdb .country_short) ∧
    (presenceAt (get_record wdb (.v4 7)) .region = typeMask wdb .region ∧
     presenceAt (get_record wdb (.v4 8)) .region = typeMask wdb .region) :=
  ⟨C9_field_presence_determinism wdb (.v4 7) (.v4 8)
      wdb_lookups_ok.1 wdb_lookups_ok.2 .country_short,
   C9_field_presence_determinism wdb (.v4 7) (.v4 8)
      wdb_lookups_ok.1 wdb_lookups_ok.2 .region⟩

/-- A successful v4 range fetch means both raw-address reads succeeded. -/
theorem get_ip_range_v4_ok (db : IP2Location) (base_db_addr offset mid f t : Nat)
    (h : get_ip_range_v4 db base_db_addr offset mid = .ok (f, t)) :
    read_ipv4 db (base_db_addr + mid * (db.db_column * 4 + offset)) = .ok f ∧
    read_ipv4 db (base_db_addr + (mid + 1) * (db.db_column * 4 + offset)) =
      .ok t := by
  rw [get_ip_range_v4] at h
  cases h1 : read_ipv4 db (base_db_addr + mid * (db.db_column * 4 + offset)) with
  | error e => rw [h1] at h; exact absurd h (by simp)
  | ok x =>
    rw [h1] at h
    simp only at h
    cases h2 : read_ipv4 db
        (base_db_addr + (mid + 1) * (db.db_column * 4 + offset)) with
    | error e => rw [h2] at h; exact absurd h (by simp)
    | ok y =>
      rw [h2] at h
      simp only at h
      have hp : (x, y) = (f, t) := Except.ok.inj h
      have hx : x = f := (Prod.mk.injEq _ _ _ _ ▸ hp).1
      have hy : y = t := (Prod.mk.injEq _ _ _ _ ▸ hp).2
      exact ⟨by rw [hx], by rw [hy]⟩

/-- A successful v6 range fetch means both raw-address reads succeeded. -/
theorem get_ip_range_v6_ok (db : IP2Location) (base_db_addr offset mid f t : Nat)
    (h : get_ip_range_v6 db base_db_addr offset mid = .ok (f, t)) :
    read_ipv6 db (base_db_addr + mid * (db.db_column * 4 + offset)) = .ok f ∧
    read_ipv6 db (base_db_addr + (mid + 1) * (db.db_column * 4 + offset)) =
      .ok t := by
  rw [get_ip_range_v6] at h
  cases h1 : read_ipv6 db (base_db_addr + mid * (db.db_column * 4 + offset)) with
  | error e => rw [h1] at h; exact absurd h (by simp)
  | ok x =>
    rw [h1] at h
    simp only at h
    cases h2 : read_ipv6 db
        (base_db_addr + (mid + 1) * (db.db_column * 4 + offset)) with
    | error e => rw [h2] at h; exact absurd h (by simp)
    | ok y =>
      rw [h2] at h
      simp only at h
      have hp : (x, y) = (f, t) := Except.ok.inj h
      have hx : x = f := (Prod.mk.injEq _ _ _ _ ▸ hp).1
      have hy : y = t := (Prod.mk.injEq _ _ _ _ ▸ hp).2
      exact ⟨by rw [hx], by rw [hy]⟩

/-- Claim C10 amended: every record a successful lookup returns has its ip
field populated (`Some`), set before and independently of the type-gated
optional fields; for a v4 lookup the stored value is exactly the matched
range's raw start (the ip read `ipv4_db_addr + mid * column_count * 4`
coincides with the search's fetch at stride `column_count*4 + 0`), while for a
v6 lookup the stored value is whatever `read_ipv6` finds at
`ipv6_db_addr + mid * column_count * 4` — the stride WITHOUT the v6 widening
12 — which is not the matched range's raw start in general (claim C2's bug;
see the counterexample). -/
theorem C10_ip_field_amended (db : IP2Location) (a : Addr)
    (hok : isOkSome (get_record db a) = true) :
    (ipOf (get_record db a)).isSome = true ∧
    (match a with
     | .v4 q => ∃ mid f t,
         get_ip_range_v4 db db.ipv4_db_addr 0 mid = .ok (f, t) ∧
         f ≤ q ∧ q < t ∧ ipOf (get_record db a) = some (.v4 f)
     | .v6 q => ∃ mid f t n,
         get_ip_range_v6 db db.ipv6_db_addr 12 mid = .ok (f, t) ∧
         f ≤ q ∧ q < t ∧
         read_ipv6 db (db.ipv6_db_addr + mid * db.db_column * 4) = .ok n ∧
         ipOf (get_record db a) = some (.v6 n)) := by
  cases hg : get_record db a with
  | error e => rw [hg] at hok; exact absurd hok (by simp [isOkSome])
  | ok o =>
    cases o with
    | none => rw [hg] at hok; exact absurd hok (by simp [isOkSome])
    | some r =>
      cases a with
      | v4 q =>
        obtain ⟨low, high, mid, hm, hr⟩ := get_record_v4_ok_some db q r hg
        obtain ⟨h1, h2, f2, t2, hgg, hf, ht⟩ :=
          binary_search_idx_sound q (get_ip_range_v4 db db.ipv4_db_addr 0)
            low high mid hm
        obtain ⟨ipval, hip, happ⟩ := read_record_ok_some db _ _ _ _ r hr
        rw [readIpField] at hip
        cases hu : read_ipv4 db (db.ipv4_db_addr + mid * db.db_column * 4) with
        | error e => rw [hu] at hip; exact absurd hip (by simp)
        | ok n =>
          rw [hu] at hip
          simp only at hip
          have hipv : ipval = .v4 n := (Except.ok.inj hip).symm
          have hirp : r.ip = some ipval :=
            applySteps_ip db db.ipv4_db_addr 0 mid fieldSteps _ r happ
          have hfirst := (get_ip_range_v4_ok db db.ipv4_db_addr 0 mid f2 t2 hgg).1
          have hoff : db.ipv4_db_addr + mid * (db.db_column * 4 + 0) =
              db.ipv4_db_addr + mid * db.db_column * 4 := by ring
          rw [hoff] at hfirst
          have hnf : n = f2 := Except.ok.inj (hu.symm.trans hfirst)
          refine ⟨by simp [ipOf, hirp], mid, f2, t2, hgg, hf, ht, ?_⟩
          show r.ip = some (.v4 f2)
          rw [hirp, hipv, hnf]
      | v6 q =>
        obtain ⟨low, high, mid, hm, hr⟩ := get_record_v6_ok_some db q r hg
        obtain ⟨h1, h2, f2, t2, hgg, hf, ht⟩ :=
          binary_search_idx_sound q (get_ip_range_v6 db db.ipv6_db_addr 12)
            low high mid hm
        obtain ⟨ipval, hip, happ⟩ := read_record_ok_some db _ _ _ _ r hr
        rw [readIpField] at hip
        cases hu : read_ipv6 db (db.ipv6_db_addr + mid * db.db_column * 4) with
        | error e => rw [hu] at hip; exact absurd hip (by simp)
        | ok n =>
          rw [hu] at hip
          simp only at hip
          have hipv : ipval = .v6 n := (Except.ok.inj hip).symm
          have hirp : r.ip = some ipval :=
            applySteps_ip db db.ipv6_db_addr 12 mid fieldSteps _ r happ
          refine ⟨by simp [ipOf, hirp], mid, f2, t2, n, hgg, hf, ht, hu, ?_⟩
          show r.ip = some (.v6 n)
          rw [hirp, hipv]

/-- Claim C10 counterexample (to the claim as stated): the `cdb6` lookup of
address 150 matches range index 1, whose stored raw start (fetched by the
search itself) is 100, yet the returned record's ip holds `100 << 96`, not
100 — so the ip field is NOT the textual form of the matched range's stored
raw address (rendering being injective on the raw value). -/
theorem C10_ip_value_counterexample :
    binary_search_idx 150 (get_ip_range_v6 cdb6 1 12) 0 2 = .ok (some 1) ∧
    get_ip_range_v6 cdb6 1 12 1 = .ok (100, 200) ∧
    ipOf (get_record cdb6 (.v6 150)) = some (.v6 (100 <<< 96)) ∧
    (100 <<< 96 : Nat) ≠ 100 := by
  have hbs : binary_search_idx 150 (get_ip_range_v6 cdb6 1 12) 0 2 =
      .ok (some 1) := by
    rw [binary_search_idx]
    norm_num
    rw [show get_ip_range_v6 cdb6 1 12 1 = .ok (100, 200) from rfl]
    norm_num
  refine ⟨hbs, rfl, ?_, by decide⟩
  have : get_record cdb6 (.v6 150) = read_record cdb6 (.v6 150) 1 12 1 := by
    rw [get_record_v6_noidx cdb6 150 (by decide) (by decide)]
    exact binary_search_of_idx_some _ _ _ _ _ _ _ _ _ hbs
  rw [this]
  rfl

/-- Claim C10 witness (for the amended theorem): the `wdb` lookup of 7
returns a record whose ip is populated and equal to the matched range's raw
start 5. -/
theorem C10_ip_field_amended_witness :
    (ipOf (get_record wdb (.v4 7))).isSome = true ∧
    ∃ mid f t, get_ip_range_v4 wdb wdb.ipv4_db_addr 0 mid = .ok (f, t) ∧
      f ≤ 7 ∧ 7 < t ∧ ipOf (get_record wdb (.v4 7)) = some (.v4 f) :=
  C10_ip_field_amended wdb (.v4 7) wdb_lookups_ok.1

/-- Disabling the index tables changes nothing a single field decode reads. -/
theorem decodeStep_stripIdx (db : IP2Location) (b o i : Nat) (s : FieldStep) :
    decodeStep (stripIdx db) b o i s = decodeStep db b o i s := rfl

/-- Disabling the index tables changes nothing the field loop reads. -/
theorem applySteps_stripIdx (db : IP2Location) (b o i : Nat) :
    ∀ (steps : List FieldStep) (r : IP2LocationRecord),
      applySteps (stripIdx db) b o i steps r = applySteps db b o i steps r := by
  intro steps
  induction steps with
  | nil => intro r; rfl
  | cons s rest ih =>
    intro r
    simp only [applySteps]
    by_cases hg : s.pos db.positions db.db_type ≠ 0
    · have hg2 : s.pos (stripIdx db).positions (stripIdx db).db_type ≠ 0 := hg
      rw [if_pos hg, if_pos hg2, decodeStep_stripIdx]
      cases decodeStep db b o i s with
      | error e => rfl
      | ok v => exact ih (setField r s.name v)
    · have hg2 : ¬s.pos (stripIdx db).positions (stripIdx db).db_type ≠ 0 := hg
      rw [if_neg hg, if_neg hg2]
      exact ih r

/-- Disabling the index tables changes nothing the record decoder reads. -/
theorem read_record_stripIdx (db : IP2Location) (a : Addr) (b o i : Nat) :
    read_record (stripIdx db) a b o i = read_record db a b o i := by
  simp only [read_record]
  rw [show readIpField (stripIdx db) a i = readIpField db a i from rfl]
  cases readIpField db a i with
  | error e => rfl
  | ok ipval =>
    simp only
    rw [applySteps_stripIdx]

/-- Claim C4 amended: for a database with an index table for the queried
family, whose consulted slot yields a window `(l, h)` with `h` inside the
table and containing a range index `j` that covers the query (the claim's
index-soundness condition instantiated at the query's own covering range),
and whose range table fetches succeed, are monotone and contiguous on the
default window, `get_record` returns the same result with the index as with
the index disabled (`stripIdx`: default bounds `low = 0,
high = record_count`).  The amendment restricts to covered addresses: for a
query below every range start, the index-disabled search aborts on the
`0usize - 1` underflow while suitable index bounds return `Ok(None)` (see the
counterexample), so the unrestricted claim fails. -/
theorem C4_index_noindex_equiv_amended :
    (∀ (db : IP2Location) (q l h j : Nat) (f t : Nat → Nat),
      0 < db.ipv4_index_base_addr →
      read_u32 db (((q >>> 16) <<< 3) + db.ipv4_index_base_addr) = .ok l →
      read_u32 db ((((q >>> 16) <<< 3) + db.ipv4_index_base_addr) + 4) = .ok h →
      h ≤ db.ipv4_db_count →
      (∀ i, i ≤ db.ipv4_db_count →
        get_ip_range_v4 db db.ipv4_db_addr 0 i = .ok (f i, t i)) →
      (∀ i k, i ≤ k → k ≤ db.ipv4_db_count → f i ≤ f k) →
      (∀ i, i < db.ipv4_db_count → t i = f (i + 1)) →
      l ≤ j → j ≤ h → f j ≤ q → q < t j →
      get_record db (.v4 q) = get_record (stripIdx db) (.v4 q)) ∧
    (∀ (db : IP2Location) (q l h j : Nat) (f t : Nat → Nat),
      0 < db.ipv6_index_base_addr →
      read_u32 db (((q >>> 112) <<< 3) + db.ipv6_index_base_addr) = .ok l →
      read_u32 db ((((q >>> 112) <<< 3) + db.ipv6_index_base_addr) + 4) = .ok h →
      h ≤ db.ipv6_db_count →
      (∀ i, i ≤ db.ipv6_db_count →
        get_ip_range_v6 db db.ipv6_db_addr 12 i = .ok (f i, t i)) →
      (∀ i k, i ≤ k → k ≤ db.ipv6_db_count → f i ≤ f k) →
      (∀ i, i < db.ipv6_db_count → t i = f (i + 1)) →
      l ≤ j → j ≤ h → f j ≤ q → q < t j →
      get_record db (.v6 q) = get_record (stripIdx db) (.v6 q)) := by
  constructor
  · intro db q l h j f t hidx h1 h2 hhc hget hmono hcontig hj1 hj2 hj3 hj4
    have hjc : j ≤ db.ipv4_db_count := le_trans hj2 hhc
    have hside1 : binary_search_idx q (get_ip_range_v4 db db.ipv4_db_addr 0)
        l h = .ok (some j) :=
      binary_search_idx_complete q _ f t l h j
        (fun i _ hi2 => hget i (le_trans hi2 hhc))
        (fun i k _ hi2 hi3 => hmono i k hi2 (le_trans hi3 hhc))
        (fun i _ hi2 => hcontig i (lt_of_lt_of_le hi2 hhc))
        hj1 hj2 hj3 hj4
    have hside2 : binary_search_idx q (get_ip_range_v4 db db.ipv4_db_addr 0)
        0 db.ipv4_db_count = .ok (some j) :=
      binary_search_idx_complete q _ f t 0 db.ipv4_db_count j
        (fun i _ hi2 => hget i hi2)
        (fun i k _ hi2 hi3 => hmono i k hi2 hi3)
        (fun i _ hi2 => hcontig i hi2)
        (Nat.zero_le j) hjc hj3 hj4
    rw [get_record_v4_withidx db q l h hidx h1 h2,
      binary_search_of_idx_some _ _ _ _ _ _ _ _ _ hside1,
      get_record_v4_noidx (stripIdx db) q (by simp [stripIdx])]
    have hside2s : binary_search_idx q
        (get_ip_range_v4 (stripIdx db) (stripIdx db).ipv4_db_addr 0)
        0 (stripIdx db).ipv4_db_count = .ok (some j) := hside2
    rw [binary_search_of_idx_some _ _ _ _ _ _ _ _ _ hside2s,
      read_record_stripIdx]
    rfl
  · intro db q l h j f t hidx h1 h2 hhc hget hmono hcontig hj1 hj2 hj3 hj4
    by_cases hc : db.ipv6_db_count = 0
    · have e1 : get_record db (.v6 q) = .error .wrongFamily := by
        simp only [get_record]
        rw [if_pos hc]
      have e2 : get_record (stripIdx db) (.v6 q) = .error .wrongFamily := by
        simp only [get_record]
        rw [if_pos (show (stripIdx db).ipv6_db_count = 0 from hc)]
      rw [e1, e2]
    · have hjc : j ≤ db.ipv6_db_count := le_trans hj2 hhc
      have hside1 : binary_search_idx q (get_ip_range_v6 db db.ipv6_db_addr 12)
          l h = .ok (some j) :=
        binary_search_idx_complete q _ f t l h j
          (fun i _ hi2 => hget i (le_trans hi2 hhc))
          (fun i k _ hi2 hi3 => hmono i k hi2 (le_trans hi3 hhc))
          (fun i _ hi2 => hcontig i (lt_of_lt_of_le hi2 hhc))
          hj1 hj2 hj3 hj4
      have hside2 : binary_search_idx q (get_ip_range_v6 db db.ipv6_db_addr 12)
          0 db.ipv6_db_count = .ok (some j) :=
        binary_search_idx_complete q _ f t 0 db.ipv6_db_count j
          (fun i _ hi2 => hget i hi2)
          (fun i k _ hi2 hi3 => hmono i k hi2 hi3)
          (fun i _ hi2 => hcontig i hi2)
          (Nat.zero_le j) hjc hj3 hj4
      rw [get_record_v6_withidx db q l h hc hidx h1 h2,
        binary_search_of_idx_some _ _ _ _ _ _ _ _ _ hside1,
        get_record_v6_noidx (stripIdx db) q
          (show (stripIdx db).ipv6_db_count ≠ 0 from hc) (by simp [stripIdx])]
      have hside2s : binary_search_idx q
          (get_ip_range_v6 (stripIdx db) (stripIdx db).ipv6_db_addr 12)
          0 (stripIdx db).ipv6_db_count = .ok (some j) := hside2
      rw [binary_search_of_idx_some _ _ _ _ _ _ _ _ _ hside2s,
        read_record_stripIdx]
      rfl

/-- Claim C4 counterexample (to the claim as stated): in `cdb4` the single
range [131072, 131082) holds only addresses with most-significant-16 prefix 2
(first conjunct), so for the query 3 (prefix 0) the empty slot-0 window
(low 1, high 0) vacuously contains every candidate index, satisfying the
claim's index-soundness condition; yet the indexed lookup returns `Ok(None)`
while the index-disabled lookup aborts on the `0usize - 1` underflow — the
two runs do NOT return identical results. -/
theorem C4_index_noindex_counterexample :
    ((List.range 10).all fun k => (131072 + k) >>> 16 == 2) = true ∧
    (3 : Nat) >>> 16 = 0 ∧
    get_record cdb4 (.v4 3) = .ok none ∧
    get_record (stripIdx cdb4) (.v4 3) = .error .panicked ∧
    (.ok none : Except RErr (Option IP2LocationRecord)) ≠ .error .panicked := by
  refine ⟨by decide, by decide, ?_, ?_, by simp⟩
  · have h : binary_search_idx 3 (get_ip_range_v4 cdb4 1 0) 1 0 = .ok none := by
      rw [binary_search_idx]
      norm_num
    show binary_search cdb4 1 0 1 0 (.v4 3) 3 (get_ip_range_v4 cdb4 1 0) = .ok none
    exact binary_search_of_idx_none _ _ _ _ _ _ _ _ h
  · have h : binary_search_idx 3 (get_ip_range_v4 (stripIdx cdb4) 1 0) 0 1 =
        .error .panicked := by
      rw [binary_search_idx]
      norm_num
      rw [show get_ip_range_v4 (stripIdx cdb4) 1 0 0 = .ok (131072, 131082) from rfl]
      norm_num
    show binary_search (stripIdx cdb4) 0 1 1 0 (.v4 3) 3
      (get_ip_range_v4 (stripIdx cdb4) 1 0) = .error .panicked
    exact binary_search_of_idx_err _ _ _ _ _ _ _ _ _ h

/-- Claim C4 witness: the amended equivalence applied to the concrete indexed
databases `wdb4i` (v4, query 7) and `wdb6i` (v6, query 150). -/
theorem C4_index_noindex_equiv_amended_witness :
    get_record wdb4i (.v4 7) = get_record (stripIdx wdb4i) (.v4 7) ∧
    get_record wdb6i (.v6 150) = get_record (stripIdx wdb6i) (.v6 150) := by
  constructor
  · refine C4_index_noindex_equiv_amended.1 wdb4i 7 0 1 0 c4f4 c4t4
      (by decide) rfl rfl (by decide) ?_ ?_ ?_ (by decide) (by decide)
      (by decide) (by decide)
    · intro i hi
      have hi2 : i ≤ 1 := hi
      interval_cases i <;> rfl
    · intro i k h1 h2
      have h2b : k ≤ 1 := h2
      have h1b : i ≤ k := h1
      interval_cases k <;> interval_cases i <;> decide
    · intro i hi
      have hi2 : i < 1 := hi
      interval_cases i
      decide
  · refine C4_index_noindex_equiv_amended.2 wdb6i 150 0 1 0 c4f6 c4t6
      (by decide) rfl rfl (by decide) ?_ ?_ ?_ (by decide) (by decide)
      (by decide) (by decide)
    · intro i hi
      have hi2 : i ≤ 1 := hi
      interval_cases i <;> rfl
    · intro i k h1 h2
      have h2b : k ≤ 1 := h2
      have h1b : i ≤ k := h1
      interval_cases k <;> interval_cases i <;> decide
    · intro i hi
      have hi2 : i < 1 := hi
      interval_cases i
      decide
